import Mathlib

/-!
Shallow embedding of the newsletter subsystem of the portfolio repository:
subscriber/token/issue data model, the subscribe-with-confirmation handler
(`src/portfolio/src/app/about/Reveal.tsx`, appended `POST`), the confirm
handler (`src/portfolio/src/app/api/newsletter/confirm/route.ts`), the
browser-facing confirm page (`ConfirmNewsletterPage`), the unsubscribe
handler (`src/portfolio/src/app/api/newsletter/unsubscribe/route.ts`) and
the two bulk-send handlers
(`src/portfolio/src/app/api/newsletter/send-upload/route.ts` and
`src/portfolio/src/app/api/newsletter/send/route.ts`).

Conventions of the embedding:
* timestamps (`Date.now()`, ISO strings) are natural numbers; the code
  compares ISO strings lexicographically, which agrees with the numeric
  order on instants, so `expires_at <= nowIso` becomes `e ≤ now`;
* `sha256Hex` (node `crypto`, an external leaf) is passed to each handler
  as an explicit function `hash : String → String`;
* randomness (`crypto.randomBytes`) and store-generated ids come in
  through the environment record of each handler;
* every fallible external call (supabase query, Resend send) is driven by
  a boolean / function field of the environment record, mirroring the
  `{ data, error }` results the code branches on;
* email bodies are not modelled; a successful provider send is recorded
  as the recipient address in an outbox list.
-/

/-- Subscriber lifecycle status (`status` column of `newsletter_subscribers`). -/
inductive SubStatus where
  | pending
  | active
  | unsubscribed
deriving DecidableEq, Repr

/-- The literal string stored in the `status` column. -/
def SubStatus.str : SubStatus → String
  | .pending => "pending"
  | .active => "active"
  | .unsubscribed => "unsubscribed"

/-- Row of `newsletter_subscribers`. -/
structure Subscriber where
  id : Nat
  email : String
  status : SubStatus
  confirmed_at : Option Nat
  welcome_sent_at : Option Nat
deriving DecidableEq, Repr

/-- `type` column of `newsletter_tokens`. -/
inductive TokenType where
  | confirm
  | unsubscribe
deriving DecidableEq, Repr

/-- Row of `newsletter_tokens`.  `used_at = none` means unused. -/
structure Token where
  id : Nat
  subscriber_id : Nat
  ttype : TokenType
  token_hash : String
  expires_at : Option Nat
  used_at : Option Nat
deriving DecidableEq, Repr

/-- Row of `newsletters` (issue metadata). -/
structure Issue where
  subject : String
  filename : String
  storage_path : String
  mime_type : String
  is_latest : Bool
deriving DecidableEq, Repr

/-- The relational store: the three tables the subsystem touches. -/
structure DB where
  subscribers : List Subscriber
  tokens : List Token
  newsletters : List Issue
deriving DecidableEq, Repr

/-- supabase `.maybeSingle()`: `none` for zero rows, the row for one,
a query error for several. -/
def maybeSingle {α : Type} (rows : List α) : Except String (Option α) :=
  match rows with
  | [] => .ok none
  | [r] => .ok (some r)
  | _ :: _ :: _ => .error "multiple rows"

/-- supabase `.single()`: exactly one row or an error. -/
def single {α : Type} (rows : List α) : Except String α :=
  match rows with
  | [r] => .ok r
  | _ => .error "not a single row"

def DB.findTokenRows (db : DB) (ty : TokenType) (h : String) : List Token :=
  db.tokens.filter (fun t => t.ttype = ty ∧ t.token_hash = h)

def DB.subRowsById (db : DB) (sid : Nat) : List Subscriber :=
  db.subscribers.filter (fun s => s.id = sid)

def DB.subRowsByEmail (db : DB) (e : String) : List Subscriber :=
  db.subscribers.filter (fun s => s.email = e)

/-- `.update(...).eq("id", sid)` on `newsletter_subscribers`. -/
def DB.updateSub (db : DB) (sid : Nat) (f : Subscriber → Subscriber) : DB :=
  { db with subscribers := db.subscribers.map (fun s => if s.id = sid then f s else s) }

/-- `.update(...).eq("id", tid)` on `newsletter_tokens`. -/
def DB.updateTok (db : DB) (tid : Nat) (f : Token → Token) : DB :=
  { db with tokens := db.tokens.map (fun t => if t.id = tid then f t else t) }

def DB.insertToken (db : DB) (t : Token) : DB :=
  { db with tokens := db.tokens ++ [t] }

/-- Does the token row `tid` carry a `used_at` timestamp in `db`? -/
def DB.tokenUsed (db : DB) (tid : Nat) : Bool :=
  db.tokens.any (fun t => t.id = tid ∧ t.used_at.isSome)

/-- Status of the subscriber row `sid`, when that row exists. -/
def DB.statusOf (db : DB) (sid : Nat) : Option SubStatus :=
  (db.subscribers.find? (fun s => s.id = sid)).map (·.status)

/-- Number of `newsletters` rows with `is_latest = true`. -/
def DB.latestCount (db : DB) : Nat :=
  (db.newsletters.filter (·.is_latest)).length

/-- 24 hours in milliseconds (`1000 * 60 * 60 * 24`), the confirm-token TTL. -/
def confirmTtlMs : Nat := 1000 * 60 * 60 * 24

/-- 365 days in milliseconds, the unsubscribe-token TTL. -/
def unsubTtlMs : Nat := 1000 * 60 * 60 * 24 * 365

/-- JS `String.prototype.toLowerCase` (ASCII-relevant part). -/
def lowerStr (s : String) : String := String.mk (s.data.map Char.toLower)

/-- JS `String.prototype.trim`: strip whitespace from both ends. -/
def trimStr (s : String) : String :=
  String.mk (((s.data.dropWhile Char.isWhitespace).reverse.dropWhile Char.isWhitespace).reverse)

/-- JS `String.prototype.includes` on the underlying character lists. -/
def listContainsSub : List Char → List Char → Bool
  | l@(_ :: rest), pat => pat.isPrefixOf l || listContainsSub rest pat
  | [], pat => pat.isEmpty

/-- JS `String.prototype.split` with a single-character separator. -/
def splitChars (sep : Char) : List Char → List (List Char)
  | [] => [[]]
  | c :: rest =>
    match splitChars sep rest with
    | [] => [[]]
    | g :: gs => if c = sep then [] :: g :: gs else (c :: g) :: gs

/-- `tokenRow.expires_at && tokenRow.expires_at <= nowIso`: a null
`expires_at` never expires. -/
def isExpired (t : Token) (now : Nat) : Bool :=
  match t.expires_at with
  | some e => e ≤ now
  | none => false

/-! ### POST /api/newsletter/confirm -/

/-- Environment of the confirm handler: presence of the two env vars, the
error outcome of each store/provider call, and the fresh randomness used by
`createUnsubscribeUrl` for the welcome email's unsubscribe link. -/
structure ConfirmEnv where
  baseUrlOk : Bool
  fromOk : Bool
  tokenSelectErr : Bool
  subUpdateErr : Bool
  tokenUsedUpdateErr : Bool
  subGetErr : Bool
  unsubInsertErr : Bool
  welcomeSendErr : Bool
  welcomeSentUpdateErr : Bool
  freshTokenId : Nat
  freshRaw : String
deriving Repr

/-- All external calls succeed, with the given fresh token id / raw value. -/
def ConfirmEnv.ok (tid : Nat) (raw : String) : ConfirmEnv :=
  ⟨true, true, false, false, false, false, false, false, false, tid, raw⟩

/-- JSON outcome of POST /api/newsletter/confirm (the `status` / `error`
field together with the HTTP class the route attaches to it). -/
inductive ConfirmRes where
  | missingToken
  | configErr (msg : String)
  | storeErr (msg : String)
  | invalidLink
  | alreadyConfirmed
  | expired
  | confirmedWithWarning
  | confirmedNoWelcome
  | confirmed
deriving DecidableEq, Repr

/-- Is the outcome an `ok : true` response? -/
def ConfirmRes.isOk : ConfirmRes → Bool
  | .alreadyConfirmed | .confirmedWithWarning | .confirmedNoWelcome | .confirmed => true
  | _ => false

/-- The welcome-email tail of the confirm handler, entered once the token is
marked used (`db` already carries both updates): load the subscriber, skip
when `welcome_sent_at` is set, otherwise mint a fresh unsubscribe token and
send the welcome mail.  The latest-issue lookup and the signed-URL call only
shape the mail body and swallow their errors, so they are not modelled. -/
def confirmWelcome (hash : String → String) (env : ConfirmEnv) (db : DB)
    (sid : Nat) (now : Nat) : ConfirmRes × DB × List String :=
  if env.subGetErr then (.confirmedNoWelcome, db, [])
  else
    match single (db.subRowsById sid) with
    | .error _ => (.confirmedNoWelcome, db, [])
    | .ok sub =>
      if sub.welcome_sent_at.isSome then (.confirmed, db, [])
      else
        -- createUnsubscribeUrl: insert a fresh unsubscribe token (hash only)
        if env.unsubInsertErr then (.storeErr "token insert failed", db, [])
        else
          let db1 := db.insertToken
            { id := env.freshTokenId, subscriber_id := sid, ttype := .unsubscribe,
              token_hash := hash env.freshRaw, expires_at := some (now + unsubTtlMs),
              used_at := none }
          if env.welcomeSendErr then (.confirmed, db1, [])
          else if env.welcomeSentUpdateErr then (.confirmed, db1, [sub.email])
          else
            (.confirmed,
              db1.updateSub sid (fun s => { s with welcome_sent_at := some now }),
              [sub.email])

/-- POST /api/newsletter/confirm
(`src/portfolio/src/app/api/newsletter/confirm/route.ts`). -/
def confirmPost (hash : String → String) (env : ConfirmEnv) (db : DB)
    (rawToken : String) (now : Nat) : ConfirmRes × DB × List String :=
  let raw := trimStr rawToken
  if raw = "" then (.missingToken, db, [])
  else
    let tokenHash := hash raw
    if ¬ env.baseUrlOk then (.configErr "Missing NEXT_PUBLIC_SITE_URL env var.", db, [])
    else if ¬ env.fromOk then (.configErr "Missing RESEND_FROM env var.", db, [])
    else
      let lookup : Except String (Option Token) :=
        if env.tokenSelectErr then .error "token select failed"
        else maybeSingle (db.findTokenRows .confirm tokenHash)
      match lookup with
      | .error m => (.storeErr m, db, [])
      | .ok none => (.invalidLink, db, [])
      | .ok (some t) =>
        if t.used_at.isSome then (.alreadyConfirmed, db, [])
        else if isExpired t now then (.expired, db, [])
        else if env.subUpdateErr then (.storeErr "subscriber update failed", db, [])
        else
          let db1 := db.updateSub t.subscriber_id
            (fun s => { s with status := .active, confirmed_at := some now })
          if env.tokenUsedUpdateErr then (.confirmedWithWarning, db1, [])
          else
            let db2 := db1.updateTok t.id (fun tk => { tk with used_at := some now })
            confirmWelcome hash env db2 t.subscriber_id now

/-! ### GET /newsletter/confirm/:token (server page, `ConfirmNewsletterPage`) -/

/-- Environment of the browser-facing confirm page: the error outcome of its
three store calls.  The page reads no env vars and sends no mail. -/
structure PageEnv where
  tokenSelectErr : Bool
  subUpdateErr : Bool
  tokenUsedUpdateErr : Bool
deriving Repr

def PageEnv.ok : PageEnv := ⟨false, false, false⟩

/-- The page rendered by `ConfirmNewsletterPage`. -/
inductive PageRes where
  | missingToken
  | serverErr (msg : String)
  | invalidLink
  | alreadyConfirmed
  | expired
  | activateFailed (msg : String)
  | confirmedPage
deriving DecidableEq, Repr

/-- Token extraction of `ConfirmNewsletterPage`: path segment
(`params.slug[0]`, URI-decoded and trimmed) wins over the `?token=` query
parameter.  `decodeURI` stands for the JS `decodeURIComponent` builtin. -/
def pageToken (decodeURI : String → String) (slug : List String)
    (queryToken : Option String) : String :=
  let tokenFromPath := decodeURI (trimStr (slug.headD ""))
  let tokenFromQuery := trimStr (queryToken.getD "")
  if tokenFromPath ≠ "" then tokenFromPath else tokenFromQuery

/-- `ConfirmNewsletterPage` (server component, `src/unnamed/part_000`): the
same token validation and the same two writes as the POST handler, but no
env-var checks, no welcome email, and the mark-used write's error is
ignored.  The returned outbox is always empty: the page imports no mailer. -/
def confirmPage (hash : String → String) (decodeURI : String → String)
    (env : PageEnv) (db : DB) (slug : List String) (queryToken : Option String)
    (now : Nat) : PageRes × DB × List String :=
  let token := pageToken decodeURI slug queryToken
  if token = "" then (.missingToken, db, [])
  else
    let tokenHash := hash token
    let lookup : Except String (Option Token) :=
      if env.tokenSelectErr then .error "token select failed"
      else maybeSingle (db.findTokenRows .confirm tokenHash)
    match lookup with
    | .error m => (.serverErr m, db, [])
    | .ok none => (.invalidLink, db, [])
    | .ok (some t) =>
      if t.used_at.isSome then (.alreadyConfirmed, db, [])
      else if isExpired t now then (.expired, db, [])
      else if env.subUpdateErr then (.activateFailed "subscriber update failed", db, [])
      else
        let db1 := db.updateSub t.subscriber_id
          (fun s => { s with status := .active, confirmed_at := some now })
        -- `await supabaseAdmin...update({used_at}).eq("id", ...)` — result unchecked
        if env.tokenUsedUpdateErr then (.confirmedPage, db1, [])
        else (.confirmedPage, db1.updateTok t.id (fun tk => { tk with used_at := some now }), [])

/-! ### POST /api/newsletter/unsubscribe -/

/-- Environment of the unsubscribe handler: error outcome of each of its
four store calls. -/
structure UnsubEnv where
  tokenSelectErr : Bool
  subReadErr : Bool
  subUpdateErr : Bool
  tokenUsedUpdateErr : Bool
deriving Repr

def UnsubEnv.ok : UnsubEnv := ⟨false, false, false, false⟩

/-- JSON outcome of POST /api/newsletter/unsubscribe. -/
inductive UnsubRes where
  | missingToken
  | storeErr (msg : String)
  | invalidLink
  | expired
  | alreadyDone
  | canceled
  | unsubscribed
deriving DecidableEq, Repr

/-- POST /api/newsletter/unsubscribe
(`src/portfolio/src/app/api/newsletter/unsubscribe/route.ts`).  Note the
order of checks: expiry is tested before `used_at`, and the subscriber's
current status is read before the used-check so the outcome can be
classified as `canceled` vs `unsubscribed`. -/
def unsubscribePost (hash : String → String) (env : UnsubEnv) (db : DB)
    (rawToken : String) (now : Nat) : UnsubRes × DB :=
  let raw := trimStr rawToken
  if raw = "" then (.missingToken, db)
  else
    let tokenHash := hash raw
    let lookup : Except String (Option Token) :=
      if env.tokenSelectErr then .error "token select failed"
      else maybeSingle (db.findTokenRows .unsubscribe tokenHash)
    match lookup with
    | .error m => (.storeErr m, db)
    | .ok none => (.invalidLink, db)
    | .ok (some t) =>
      if isExpired t now then (.expired, db)
      else
        let subRead : Except String (Option Subscriber) :=
          if env.subReadErr then .error "subscriber read failed"
          else maybeSingle (db.subRowsById t.subscriber_id)
        match subRead with
        | .error m => (.storeErr m, db)
        | .ok sub =>
          if t.used_at.isSome then (.alreadyDone, db)
          else
            let res : UnsubRes :=
              if (sub.map (·.status)) = some .pending then .canceled else .unsubscribed
            if env.subUpdateErr then (.storeErr "subscriber update failed", db)
            else
              let db1 := db.updateSub t.subscriber_id
                (fun s => { s with status := .unsubscribed })
              if env.tokenUsedUpdateErr then (res, db1)
              else (res, db1.updateTok t.id (fun tk => { tk with used_at := some now }))

/-! ### Subscribe with confirmation (appended POST in `about/Reveal.tsx`) -/

/-- `[^\s@]` of the email regex: any character that is not whitespace and
not `@`. -/
def isPlainChar (c : Char) : Bool :=
  ¬ c.isWhitespace ∧ c ≠ '@'

/-- `/^[^\s@]+@[^\s@]+\.[^\s@]+$/`: one `@`, nonempty plain local part, and
a domain that decomposes as `B ++ "." ++ C` with `B`, `C` nonempty plain —
equivalently, the domain has a dot that is neither its first nor its last
character. -/
def isValidEmail (s : String) : Bool :=
  match splitChars '@' s.data with
  | [loc, dom] =>
    ¬ loc.isEmpty ∧ loc.all isPlainChar ∧ dom.all isPlainChar ∧
      ((dom.drop 1).dropLast.contains '.')
  | _ => false

/-- Environment of the subscribe-with-confirmation handler. -/
structure SubscribeEnv where
  subSelectErr : Bool
  subInsertErr : Bool
  tokenInsertErr : Bool
  baseUrlOk : Bool
  mailSendErr : Bool
  freshSubId : Nat
  freshTokenId : Nat
  freshRaw : String
deriving Repr

def SubscribeEnv.ok (sid tid : Nat) (raw : String) : SubscribeEnv :=
  ⟨false, false, false, true, false, sid, tid, raw⟩

/-- JSON outcome of the subscribe handler: `{ok:false, error}` or
`{ok:true, status}` with the literal status string. -/
inductive SubscribeRes where
  | err (msg : String) (code : Nat)
  | okSt (status : String)
deriving DecidableEq, Repr

/-- The subscribe-with-confirmation handler (appended `POST` of
`src/portfolio/src/app/about/Reveal.tsx`): normalize, look up the
subscriber, reject `unsubscribed`, insert a `pending` row if new,
short-circuit `active`, mint a confirm token (hash stored, 24h expiry) and
send the confirmation mail. -/
def subscribeConfirmPost (hash : String → String) (env : SubscribeEnv)
    (db : DB) (emailRaw : String) (now : Nat) : SubscribeRes × DB × List String :=
  let email := lowerStr (trimStr emailRaw)
  if ¬ isValidEmail email then (.err "Invalid email address." 400, db, [])
  else
    let lookup : Except String (Option Subscriber) :=
      if env.subSelectErr then .error "subscriber select failed"
      else maybeSingle (db.subRowsByEmail email)
    match lookup with
    | .error m => (.err m 500, db, [])
    | .ok existing =>
      -- Safety: don't resubscribe unsubscribed users automatically.
      if (existing.map (·.status)) = some .unsubscribed then
        (.err "That email is unsubscribed." 400, db, [])
      else
        let idAndDb : Except String (Nat × DB) :=
          match existing with
          | some e => .ok (e.id, db)
          | none =>
            if env.subInsertErr then .error "subscriber insert failed"
            else .ok (env.freshSubId,
              { db with subscribers := db.subscribers ++
                  [{ id := env.freshSubId, email := email, status := .pending,
                     confirmed_at := none, welcome_sent_at := none }] })
        match idAndDb with
        | .error m => (.err m 500, db, [])
        | .ok (sid, db1) =>
          if (existing.map (·.status)) = some .active then (.okSt "active", db1, [])
          else
            if env.tokenInsertErr then (.err "token insert failed" 500, db1, [])
            else
              let db2 := db1.insertToken
                { id := env.freshTokenId, subscriber_id := sid, ttype := .confirm,
                  token_hash := hash env.freshRaw, expires_at := some (now + confirmTtlMs),
                  used_at := none }
              if ¬ env.baseUrlOk then
                (.err "Missing NEXT_PUBLIC_SITE_URL env var." 500, db2, [])
              else if env.mailSendErr then (.err "mail send failed" 500, db2, [])
              else (.okSt "pending", db2, [email])

/-! ### Bulk send: retry helper and the two send routes -/

/-- `stringifyResendError`: Resend errors reach the retry helper as strings
in this embedding, and a null error stringifies to "Unknown error". -/
def stringifyResendError : Option String → String
  | none => "Unknown error"
  | some s => s

/-- Does `s` contain `pat` as a substring (JS `String.includes`)? -/
def containsSub (s pat : String) : Bool :=
  listContainsSub s.data pat.data

/-- The rate-limit classifier of `resendSendWithRetry`, applied to the
lowercased stringified error. -/
def is429 (msg : String) : Bool :=
  let m := lowerStr msg
  containsSub m "429" ∨ containsSub m "too many" ∨
    containsSub m "rate limit" ∨ containsSub m "rate_limit_exceeded"

/-- The `for (let attempt = 1; attempt <= maxTries; attempt++)` loop of
`resendSendWithRetry`, unrolled on the number of remaining iterations.
`send n` is the outcome of the n-th provider call (`none` = success).
Returns the thrown/ok outcome together with the list of attempt numbers
actually performed.  The backoff sleeps do not affect the outcome and are
not modelled. -/
def retryAux (send : Nat → Option String) (lastErr : Option String)
    (attempt : Nat) : Nat → Except String Unit × List Nat
  | 0 => (.error (stringifyResendError lastErr), [])
  | remaining + 1 =>
    match send attempt with
    | none => (.ok (), [attempt])
    | some e =>
      if is429 (stringifyResendError (some e)) then
        let r := retryAux send (some e) (attempt + 1) remaining
        (r.1, attempt :: r.2)
      else (.error (stringifyResendError (some e)), [attempt])

/-- `resendSendWithRetry` of `send-upload/route.ts`: retry only on
rate-limit errors, up to `maxTries` provider calls in total. -/
def resendSendWithRetry (send : Nat → Option String) (maxTries : Nat) :
    Except String Unit × List Nat :=
  retryAux send none 1 maxTries

/-- The uploaded file, as far as the guardrails inspect it. -/
structure FileInfo where
  name : String
  size : Nat
deriving DecidableEq, Repr

/-- `filename.toLowerCase().split(".").pop()`. -/
def extOf (filename : String) : String :=
  String.mk ((splitChars '.' (lowerStr filename).data).getLastD [])

/-- Environment of the send-upload handler: env vars, storage upload
outcome, subscriber-select outcome, and the per-recipient outcomes of the
unsubscribe-token insert and of each provider attempt. -/
structure SendEnv where
  baseUrlOk : Bool
  fromOk : Bool
  uploadErr : Bool
  subSelectErr : Bool
  mintErr : String → Option String
  sendOutcome : String → Nat → Option String
  clearErr : Bool
  issueInsertErr : Bool
  freshTokId : String → Nat
  freshRaw : String → String
  storagePrefix : String

/-- JSON outcome of the two bulk-send routes. -/
inductive SendRes where
  | err (msg : String) (code : Nat)
  | ok (sent : Nat) (failed : List (String × String))
deriving DecidableEq, Repr

/-- Output of the per-recipient loop: store, `sent` counter, `failed` list
and the outbox, all in iteration order. -/
structure LoopOut where
  db : DB
  sent : Nat
  failed : List (String × String)
  mails : List String
deriving Repr

/-- The per-recipient loop of `send-upload`: for each `(id, email)`, mint a
fresh unsubscribe token, then send through `resendSendWithRetry`; a throw
from either step lands in `failed` for that recipient only.  The 600ms
inter-recipient throttle has no observable effect here. -/
def sendUploadLoop (hash : String → String) (env : SendEnv) (now : Nat) :
    DB → List (Nat × String) → LoopOut
  | db, [] => ⟨db, 0, [], []⟩
  | db, r :: rest =>
    match env.mintErr r.2 with
    | some m =>
      let x := sendUploadLoop hash env now db rest
      ⟨x.db, x.sent, (r.2, m) :: x.failed, x.mails⟩
    | none =>
      let db1 := db.insertToken
        { id := env.freshTokId r.2, subscriber_id := r.1, ttype := .unsubscribe,
          token_hash := hash (env.freshRaw r.2), expires_at := some (now + unsubTtlMs),
          used_at := none }
      match (resendSendWithRetry (env.sendOutcome r.2) 4).1 with
      | .ok _ =>
        let x := sendUploadLoop hash env now db1 rest
        ⟨x.db, x.sent + 1, x.failed, r.2 :: x.mails⟩
      | .error m =>
        let x := sendUploadLoop hash env now db1 rest
        ⟨x.db, x.sent, (r.2, m) :: x.failed, x.mails⟩

/-- The `update({ is_latest: false }).eq("is_latest", true)` write, applied
rowwise. -/
def demoteLatest (i : Issue) : Issue :=
  if i.is_latest then { i with is_latest := false } else i

/-- Latest-issue bookkeeping of `send-upload`: run only when `sent > 0`,
clear `is_latest` wherever it is set, then insert the new row marked
latest. -/
def issueBookkeeping (env : SendEnv) (db : DB) (subject filename storagePath contentType : String)
    (sent : Nat) : Except String DB :=
  if sent > 0 then
    if env.clearErr then .error "issue clear failed"
    else
      let dbA := { db with newsletters := db.newsletters.map demoteLatest }
      if env.issueInsertErr then .error "issue insert failed"
      else
        let newRow : Issue := ⟨subject, filename, storagePath, contentType, true⟩
        .ok { dbA with newsletters := dbA.newsletters ++ [newRow] }
  else .ok db

/-- The rows `select("id,email").eq("status", "active")` returns. -/
def DB.activeRecipients (db : DB) : List (Nat × String) :=
  (db.subscribers.filter (fun s => s.status = SubStatus.active)).map (fun s => (s.id, s.email))

/-- POST /api/newsletter/send-upload
(`src/portfolio/src/app/api/newsletter/send-upload/route.ts`): env checks,
subject/file guardrails, storage upload, recipient resolution (single test
address — which must be an `active` subscriber — or all active
subscribers), the per-recipient loop, then latest-issue bookkeeping. -/
def sendUploadPost (hash : String → String) (env : SendEnv) (db : DB)
    (subjectRaw testEmailRaw : String) (file : Option FileInfo) (now : Nat) :
    SendRes × DB × List String :=
  if ¬ env.baseUrlOk then (.err "Missing NEXT_PUBLIC_SITE_URL env var." 500, db, [])
  else if ¬ env.fromOk then (.err "Missing RESEND_FROM env var." 500, db, [])
  else
    let subject := trimStr subjectRaw
    let testEmail := lowerStr (trimStr testEmailRaw)
    if subject = "" then (.err "Missing subject." 400, db, [])
    else
      match file with
      | none => (.err "Missing file upload." 400, db, [])
      | some f =>
        let filename := if f.name = "" then "newsletter" else f.name
        let ext := extOf filename
        if ¬ (ext = "pdf" ∨ ext = "docx") then
          (.err "Only .pdf or .docx files are allowed." 400, db, [])
        else if f.size > 10 * 1024 * 1024 then
          (.err "File too large (max 10MB)." 400, db, [])
        else if env.uploadErr then (.err "upload failed" 500, db, [])
        else
          let contentType := if ext = "pdf" then "application/pdf"
            else "application/vnd.openxmlformats-officedocument.wordprocessingml.document"
          let storagePath := env.storagePrefix ++ filename
          let recipients : Except (String × Nat) (List (Nat × String)) :=
            if testEmail ≠ "" then
              if env.subSelectErr then .error ("subscriber select failed", 500)
              else
                match maybeSingle (db.subRowsByEmail testEmail) with
                | .error m => .error (m, 500)
                | .ok none => .error ("Test email not found in DB.", 400)
                | .ok (some d) =>
                  if d.status ≠ SubStatus.active then
                    .error ("Test email is not active (status=" ++ d.status.str ++
                      "). Subscribe + confirm first.", 400)
                  else .ok [(d.id, d.email)]
            else
              if env.subSelectErr then .error ("subscriber select failed", 500)
              else .ok db.activeRecipients
          match recipients with
          | .error (m, c) => (.err m c, db, [])
          | .ok rs =>
            let x := sendUploadLoop hash env now db rs
            match issueBookkeeping env x.db subject filename storagePath contentType x.sent with
            | .error m => (.err m 500, x.db, x.mails)
            | .ok db2 => (.ok x.sent x.failed, db2, x.mails)

/-! ### POST /api/newsletter/send (the JSON/html bulk-send route) -/

/-- Environment of the html send handler: single provider attempt per
recipient, no retries. -/
structure SendHtmlEnv where
  baseUrlOk : Bool
  subSelectErr : Bool
  mintErr : String → Option String
  sendOutcome1 : String → Option String
  freshTokId : String → Nat
  freshRaw : String → String

/-- Per-recipient loop of the html send route: mint an unsubscribe token,
one provider call; any error lands in `failed` for that recipient. -/
def sendHtmlLoop (hash : String → String) (env : SendHtmlEnv) (now : Nat) :
    DB → List (Nat × String) → LoopOut
  | db, [] => ⟨db, 0, [], []⟩
  | db, r :: rest =>
    match env.mintErr r.2 with
    | some m =>
      let x := sendHtmlLoop hash env now db rest
      ⟨x.db, x.sent, (r.2, m) :: x.failed, x.mails⟩
    | none =>
      let db1 := db.insertToken
        { id := env.freshTokId r.2, subscriber_id := r.1, ttype := .unsubscribe,
          token_hash := hash (env.freshRaw r.2), expires_at := some (now + unsubTtlMs),
          used_at := none }
      match env.sendOutcome1 r.2 with
      | none =>
        let x := sendHtmlLoop hash env now db1 rest
        ⟨x.db, x.sent + 1, x.failed, r.2 :: x.mails⟩
      | some e =>
        let x := sendHtmlLoop hash env now db1 rest
        ⟨x.db, x.sent, (r.2, e) :: x.failed, x.mails⟩

/-- POST /api/newsletter/send
(`src/portfolio/src/app/api/newsletter/send/route.ts`).  The test-address
branch selects `id,email` only: it requires the subscriber to exist but
performs no status check before sending. -/
def sendHtmlPost (hash : String → String) (env : SendHtmlEnv) (db : DB)
    (subjectRaw htmlRaw testEmailRaw : String) (now : Nat) :
    SendRes × DB × List String :=
  let subject := trimStr subjectRaw
  let html := trimStr htmlRaw
  let testEmail := lowerStr (trimStr testEmailRaw)
  if subject = "" ∨ html = "" then (.err "Missing subject or html." 400, db, [])
  else if ¬ env.baseUrlOk then (.err "Missing NEXT_PUBLIC_SITE_URL env var." 500, db, [])
  else
    let recipients : Except (String × Nat) (List (Nat × String)) :=
      if testEmail ≠ "" then
        if env.subSelectErr then .error ("subscriber select failed", 500)
        else
          match maybeSingle (db.subRowsByEmail testEmail) with
          | .error m => .error (m, 500)
          | .ok none => .error ("Test email not found in DB.", 400)
          | .ok (some d) => .ok [(d.id, d.email)]
      else
        if env.subSelectErr then .error ("subscriber select failed", 500)
        else .ok db.activeRecipients
    match recipients with
    | .error (m, c) => (.err m c, db, [])
    | .ok rs =>
      let x := sendHtmlLoop hash env now db rs
      (.ok x.sent x.failed, x.db, x.mails)

/-! ### Concrete test fixtures and derived classifiers -/

/-- Hash stand-in used by the concrete test states: injective on the raw
values that occur in them. -/
def cHash (s : String) : String := s ++ "#h"

def c2tok : Token := ⟨10, 1, .confirm, "tok#h", some 100, some 40⟩

def c2db : DB := ⟨[⟨1, "a@b.com", .active, some 1, none⟩], [c2tok], []⟩

def c2udb : DB :=
  ⟨[⟨1, "a@b.com", .active, some 1, none⟩],
   [⟨11, 1, .unsubscribe, "utok#h", some 100, some 40⟩], []⟩

def c7db (st : SubStatus) : DB :=
  ⟨[⟨1, "a@b.com", st, none, none⟩],
   [⟨11, 1, .unsubscribe, "utok#h", some 1000, none⟩], []⟩

def c6db : DB :=
  ⟨[⟨1, "a@b.com", .pending, none, none⟩],
   [⟨10, 1, .confirm, "tok#h", some 100, none⟩], []⟩

def c10env : ConfirmEnv := ⟨true, true, false, true, false, false, false, false, false, 99, "fresh"⟩

/-- Common classification of the token-validation outcomes that the JSON
route and the server page both expose. -/
inductive TokenOutcome where
  | missing
  | storeFail
  | invalid
  | already
  | expired
  | success
deriving DecidableEq, Repr

def classifyPost : ConfirmRes → TokenOutcome
  | .missingToken => .missing
  | .configErr _ => .storeFail
  | .storeErr _ => .storeFail
  | .invalidLink => .invalid
  | .alreadyConfirmed => .already
  | .expired => .expired
  | .confirmedWithWarning => .success
  | .confirmedNoWelcome => .success
  | .confirmed => .success

def classifyPage : PageRes → TokenOutcome
  | .missingToken => .missing
  | .serverErr _ => .storeFail
  | .invalidLink => .invalid
  | .alreadyConfirmed => .already
  | .expired => .expired
  | .activateFailed _ => .storeFail
  | .confirmedPage => .success

def c1db : DB := ⟨[⟨1, "a@b.com", .unsubscribed, none, none⟩], [], []⟩

def w8send (n : Nat) : Option String := if n = 1 then some "429 rate limit" else some "boom"

/-- Does the recipient with this address fail in the send-upload loop
(either the token insert throws, or the retried send throws)? -/
def recipFails (env : SendEnv) (email : String) : Bool :=
  match env.mintErr email with
  | some _ => true
  | none =>
    match (resendSendWithRetry (env.sendOutcome email) 4).1 with
    | .ok _ => false
    | .error _ => true

/-- The error message recorded for a failing recipient. -/
def recipErrMsg (env : SendEnv) (email : String) : String :=
  match env.mintErr email with
  | some m => m
  | none =>
    match (resendSendWithRetry (env.sendOutcome email) 4).1 with
    | .ok _ => ""
    | .error m => m

def c3env : SendEnv :=
  ⟨true, true, false, false, fun _ => none,
   fun e _ => if e = "b@x.com" then some "boom" else none,
   false, false, fun _ => 70, fun e => e ++ "R", "sp-"⟩

def c3db : DB :=
  ⟨[⟨1, "a@x.com", .active, none, none⟩, ⟨2, "b@x.com", .active, none, none⟩,
    ⟨3, "c@x.com", .pending, none, none⟩], [], []⟩

def c5db : DB := ⟨[⟨1, "t@x.com", .pending, none, none⟩], [], []⟩

def c5env : SendHtmlEnv :=
  ⟨true, false, fun _ => none, fun _ => none, fun _ => 50, fun _ => "r"⟩

/-! ### Theorems -/

theorem retryAux_spec (send : Nat → Option String) :
    ∀ (remaining attempt : Nat) (lastErr : Option String),
      ((retryAux send lastErr attempt remaining).2.length ≤ remaining) ∧
      (∀ k ∈ (retryAux send lastErr attempt remaining).2, attempt ≤ k) ∧
      (∀ k, attempt ≤ k → (k + 1) ∈ (retryAux send lastErr attempt remaining).2 →
        ∃ e, send k = some e ∧ is429 e = true) ∧
      (∀ k e, k ∈ (retryAux send lastErr attempt remaining).2 → send k = some e →
        is429 e = false →
        (retryAux send lastErr attempt remaining).1 = .error e ∧
          ∀ j ∈ (retryAux send lastErr attempt remaining).2, j ≤ k) := by
  intro remaining
  induction remaining with
  | zero => intro attempt lastErr; simp [retryAux]
  | succ n ih =>
    intro attempt lastErr
    simp only [retryAux]
    cases hs : send attempt with
    | none =>
      refine ⟨by simp, by simp, ?_, ?_⟩
      · intro k hk hmem
        simp at hmem
        omega
      · intro k e hk hke h429
        simp at hk
        subst hk
        rw [hs] at hke
        cases hke
    | some e =>
      by_cases h429 : is429 (stringifyResendError (some e)) = true
      · simp only [h429, if_pos]
        obtain ⟨ihLen, ihLb, ihStep, ihStop⟩ := ih (attempt + 1) (some e)
        refine ⟨by simpa using ihLen, ?_, ?_, ?_⟩
        · intro k hk
          simp at hk
          rcases hk with rfl | hk
          · omega
          · exact le_trans (by omega) (ihLb k hk)
        · intro k hkle hmem
          simp at hmem
          rcases hmem with heq | hmem
          · omega
          · rcases Nat.lt_or_ge attempt k with hlt | hge
            · exact ihStep k (by omega) hmem
            · have : attempt = k := by omega
              subst this
              exact ⟨e, hs, by simpa [stringifyResendError] using h429⟩
        · intro k e' hk hke h429'
          simp at hk
          rcases hk with rfl | hk
          · rw [hs] at hke
            cases hke
            simp [stringifyResendError] at h429
            rw [h429] at h429'
            cases h429'
          · obtain ⟨hfst, hall⟩ := ihStop k e' hk hke h429'
            refine ⟨hfst, ?_⟩
            intro j hj
            simp at hj
            rcases hj with rfl | hj
            · exact le_trans (by omega) (ihLb k hk)
            · exact hall j hj
      · simp only [h429, if_neg]
        refine ⟨by simp, by simp, ?_, ?_⟩
        · intro k hkle hmem
          simp at hmem
          omega
        · intro k e' hk hke h429'
          simp at hk
          subst hk
          rw [hs] at hke
          cases hke
          exact ⟨by simp [stringifyResendError], by intro j hj; simp at hj; omega⟩

/-- C8: within a single recipient's send, `resendSendWithRetry` calls the
Mailer at most 4 times; attempt `k+1` happens only when attempt `k` failed
with an error classified as a provider rate limit (`is429`); and any
non-rate-limit error stops the retrying immediately, failing the
recipient's send with exactly that error. -/
theorem retry_policy (send : Nat → Option String) :
    ((resendSendWithRetry send 4).2.length ≤ 4) ∧
    (∀ k, 1 ≤ k → (k + 1) ∈ (resendSendWithRetry send 4).2 →
      ∃ e, send k = some e ∧ is429 e = true) ∧
    (∀ k e, k ∈ (resendSendWithRetry send 4).2 → send k = some e → is429 e = false →
      (resendSendWithRetry send 4).1 = .error e ∧
        ∀ j ∈ (resendSendWithRetry send 4).2, j ≤ k) := by
  obtain ⟨hl, _, hstep, hstop⟩ := retryAux_spec send 4 1 none
  exact ⟨hl, fun k hk => hstep k hk, hstop⟩

theorem retry_policy_witness :
    ((resendSendWithRetry w8send 4).2.length ≤ 4) ∧
    (∃ e, w8send 1 = some e ∧ is429 e = true) ∧
    ((resendSendWithRetry w8send 4).1 = .error "boom" ∧
      ∀ j ∈ (resendSendWithRetry w8send 4).2, j ≤ 2) := by
  obtain ⟨hl, hstep, hstop⟩ := retry_policy w8send
  refine ⟨hl, hstep 1 (by decide) (by decide), hstop 2 "boom" (by decide) (by decide) (by decide)⟩

/-- C2 (amended): for the unsubscribe route, every token past `expires_at`
yields the Expired outcome regardless of its `used_at` state; for the
confirm route, an expired token yields Expired only when it is still
unused — the `used_at` check runs first, so an expired-and-used confirm
token yields the idempotent `already_confirmed` success instead. -/
theorem expiry_check_order :
    (∀ (hash : String → String) (env : UnsubEnv) (db : DB) (raw : String) (now : Nat)
       (t : Token),
      env.tokenSelectErr = false →
      trimStr raw ≠ "" →
      db.findTokenRows .unsubscribe (hash (trimStr raw)) = [t] →
      isExpired t now = true →
      unsubscribePost hash env db raw now = (.expired, db)) ∧
    (∀ (hash : String → String) (env : ConfirmEnv) (db : DB) (raw : String) (now : Nat)
       (t : Token),
      env.baseUrlOk = true → env.fromOk = true → env.tokenSelectErr = false →
      trimStr raw ≠ "" →
      db.findTokenRows .confirm (hash (trimStr raw)) = [t] →
      t.used_at = none →
      isExpired t now = true →
      confirmPost hash env db raw now = (.expired, db, [])) ∧
    (∀ (hash : String → String) (env : ConfirmEnv) (db : DB) (raw : String) (now : Nat)
       (t : Token) (u : Nat),
      env.baseUrlOk = true → env.fromOk = true → env.tokenSelectErr = false →
      trimStr raw ≠ "" →
      db.findTokenRows .confirm (hash (trimStr raw)) = [t] →
      t.used_at = some u →
      confirmPost hash env db raw now = (.alreadyConfirmed, db, [])) := by
  refine ⟨?_, ?_, ?_⟩
  · intro hash env db raw now t hsel hraw hlook hexp
    simp only [unsubscribePost, if_neg hraw, hsel, hlook, maybeSingle]
    simp [hexp]
  · intro hash env db raw now t hb hf hsel hraw hlook hused hexp
    simp only [confirmPost, if_neg hraw, hb, hf, hsel, hlook, maybeSingle]
    simp [hexp, hused]
  · intro hash env db raw now t u hb hf hsel hraw hlook hused
    simp only [confirmPost, if_neg hraw, hb, hf, hsel, hlook, maybeSingle]
    simp [hused]

/-- C2 counterexample: a confirm token that is both expired
(`expires_at = 100 ≤ now = 200`) and already used yields
`already_confirmed`, not the Expired outcome the claim demands. -/
theorem confirm_expired_used_counterexample :
    isExpired c2tok 200 = true ∧ c2tok.used_at.isSome = true ∧
    c2db.findTokenRows .confirm (cHash "tok") = [c2tok] ∧
    (confirmPost cHash (ConfirmEnv.ok 99 "fresh") c2db "tok" 200).1 = .alreadyConfirmed ∧
    (confirmPost cHash (ConfirmEnv.ok 99 "fresh") c2db "tok" 200).1 ≠ .expired := by
  decide

/-- Witness for `expiry_check_order` at a concrete expired-and-used
unsubscribe token. -/
theorem expiry_check_order_witness :
    unsubscribePost cHash UnsubEnv.ok c2udb "utok" 200 = (.expired, c2udb) :=
  expiry_check_order.1 cHash UnsubEnv.ok c2udb "utok" 200
    ⟨11, 1, .unsubscribe, "utok#h", some 100, some 40⟩
    rfl (by decide) (by decide) (by decide)

theorem mem_tokens_of_findTokenRows {db : DB} {ty : TokenType} {h : String} {t : Token}
    (hl : db.findTokenRows ty h = [t]) : t ∈ db.tokens := by
  have ht : t ∈ db.findTokenRows ty h := by rw [hl]; simp
  exact List.mem_of_mem_filter ht

/-- C7: for a valid, unused, unexpired unsubscribe token, the route
classifies the outcome as `canceled` when the owning subscriber is
`pending` and `unsubscribed` when it is `active`; in both cases the
persisted status afterwards is `unsubscribed` and the token is marked
used. -/
theorem unsubscribe_classification :
    ∀ (hash : String → String) (db : DB) (raw : String) (now : Nat) (t : Token)
      (sub : Subscriber),
      trimStr raw ≠ "" →
      db.findTokenRows .unsubscribe (hash (trimStr raw)) = [t] →
      isExpired t now = false →
      t.used_at = none →
      db.subRowsById t.subscriber_id = [sub] →
      (sub.status = .pending →
        (unsubscribePost hash UnsubEnv.ok db raw now).1 = .canceled) ∧
      (sub.status = .active →
        (unsubscribePost hash UnsubEnv.ok db raw now).1 = .unsubscribed) ∧
      (∀ s ∈ (unsubscribePost hash UnsubEnv.ok db raw now).2.subscribers,
        s.id = t.subscriber_id → s.status = .unsubscribed) ∧
      (unsubscribePost hash UnsubEnv.ok db raw now).2.tokenUsed t.id = true := by
  intro hash db raw now t sub hraw hlook hexp hused hsub
  have key : unsubscribePost hash UnsubEnv.ok db raw now =
      ((if sub.status = .pending then .canceled else .unsubscribed),
        (db.updateSub t.subscriber_id
          (fun s => { s with status := .unsubscribed })).updateTok t.id
          (fun tk => { tk with used_at := some now })) := by
    simp only [unsubscribePost, if_neg hraw, UnsubEnv.ok, maybeSingle, hlook]
    simp [hexp, hused, hsub]
  refine ⟨?_, ?_, ?_, ?_⟩
  · intro hst; rw [key]; simp [hst]
  · intro hst; rw [key]; simp [hst]
  · intro s hs hid
    rw [key] at hs
    simp only [DB.updateTok, DB.updateSub] at hs
    simp only [List.mem_map] at hs
    obtain ⟨s0, _, rfl⟩ := hs
    by_cases h0 : s0.id = t.subscriber_id
    · simp [h0]
    · simp only [if_neg h0] at hid ⊢
      exact absurd hid h0
  · rw [key]
    simp only [DB.tokenUsed, DB.updateTok, DB.updateSub, List.any_eq_true]
    refine ⟨{ t with used_at := some now }, ?_, by simp⟩
    simp only [List.mem_map]
    exact ⟨t, mem_tokens_of_findTokenRows hlook, by simp⟩

/-- Witness for `unsubscribe_classification` on concrete pending and
active subscribers. -/
theorem unsubscribe_classification_witness :
    ((unsubscribePost cHash UnsubEnv.ok (c7db .pending) "utok" 200).1 = .canceled) ∧
    ((unsubscribePost cHash UnsubEnv.ok (c7db .active) "utok" 200).1 = .unsubscribed) ∧
    ((unsubscribePost cHash UnsubEnv.ok (c7db .active) "utok" 200).2.tokenUsed 11 = true) := by
  have h1 := unsubscribe_classification cHash (c7db .pending) "utok" 200
    ⟨11, 1, .unsubscribe, "utok#h", some 1000, none⟩ ⟨1, "a@b.com", .pending, none, none⟩
    (by decide) (by decide) (by decide) (by decide) (by decide)
  have h2 := unsubscribe_classification cHash (c7db .active) "utok" 200
    ⟨11, 1, .unsubscribe, "utok#h", some 1000, none⟩ ⟨1, "a@b.com", .active, none, none⟩
    (by decide) (by decide) (by decide) (by decide) (by decide)
  exact ⟨h1.1 rfl, h2.2.1 rfl, h2.2.2.2⟩

theorem filter_map_pres {α : Type} (f : α → α) (p : α → Bool) (hp : ∀ x, p (f x) = p x) :
    ∀ l : List α, (l.map f).filter p = (l.filter p).map f := by
  intro l
  induction l with
  | nil => simp
  | cons a l ih =>
    by_cases h : p a = true
    · simp [List.filter_cons, hp, h, ih]
    · simp only [Bool.not_eq_true] at h
      simp [List.filter_cons, hp, h, ih]

theorem findTokenRows_updateSub (db : DB) (sid : Nat) (f : Subscriber → Subscriber)
    (ty : TokenType) (hh : String) :
    (db.updateSub sid f).findTokenRows ty hh = db.findTokenRows ty hh := rfl

theorem findTokenRows_markUsed (db : DB) (tid now : Nat) (ty : TokenType) (hh : String) :
    (db.updateTok tid (fun tk => { tk with used_at := some now })).findTokenRows ty hh =
      (db.findTokenRows ty hh).map
        (fun tk => if tk.id = tid then { tk with used_at := some now } else tk) := by
  unfold DB.updateTok DB.findTokenRows
  apply filter_map_pres
  intro x
  by_cases h : x.id = tid <;> simp [h]

theorem findTokenRows_insert_unsub (db : DB) (tk : Token) (hty : tk.ttype = .unsubscribe)
    (hh : String) :
    (db.insertToken tk).findTokenRows .confirm hh = db.findTokenRows .confirm hh := by
  unfold DB.insertToken DB.findTokenRows
  simp [List.filter_append, hty]

theorem subRowsById_updateTok (db : DB) (tid : Nat) (g : Token → Token) (sid : Nat) :
    (db.updateTok tid g).subRowsById sid = db.subRowsById sid := rfl

theorem subRowsById_updateSub_self (db : DB) (sid : Nat) (act : Subscriber → Subscriber)
    (hid : ∀ s, (act s).id = s.id) :
    (db.updateSub sid act).subRowsById sid = (db.subRowsById sid).map act := by
  unfold DB.updateSub DB.subRowsById
  rw [filter_map_pres]
  · apply List.map_congr_left
    intro s hs
    simp only [List.mem_filter, decide_eq_true_eq] at hs
    simp [hs.2]
  · intro x
    by_cases h : x.id = sid <;> simp [h, hid]

theorem of_subRowsById_single {db : DB} {sid : Nat} {sub : Subscriber}
    (h : db.subRowsById sid = [sub]) : sub.id = sid := by
  have : sub ∈ db.subRowsById sid := by rw [h]; simp
  unfold DB.subRowsById at this
  simp only [List.mem_filter, decide_eq_true_eq] at this
  exact this.2

theorem confirmWelcome_findConfirm (hash : String → String) (env : ConfirmEnv) (db : DB)
    (sid now : Nat) (hh : String) :
    (confirmWelcome hash env db sid now).2.1.findTokenRows .confirm hh =
      db.findTokenRows .confirm hh := by
  unfold confirmWelcome
  split
  · rfl
  · split
    · rfl
    · split
      · rfl
      · split
        · rfl
        · split
          · exact findTokenRows_insert_unsub db _ rfl hh
          · split
            · exact findTokenRows_insert_unsub db _ rfl hh
            · rw [findTokenRows_updateSub, findTokenRows_insert_unsub db _ rfl hh]

theorem confirmWelcome_subscribers (hash : String → String) (env : ConfirmEnv) (db : DB)
    (sid now : Nat) :
    ∀ s ∈ (confirmWelcome hash env db sid now).2.1.subscribers,
      ∃ s0 ∈ db.subscribers, s.id = s0.id ∧ s.status = s0.status := by
  have base : ∀ s ∈ db.subscribers, ∃ s0 ∈ db.subscribers, s.id = s0.id ∧ s.status = s0.status :=
    fun s hs => ⟨s, hs, rfl, rfl⟩
  have step : ∀ s ∈ ((db.insertToken
        { id := env.freshTokenId, subscriber_id := sid, ttype := .unsubscribe,
          token_hash := hash env.freshRaw, expires_at := some (now + unsubTtlMs),
          used_at := none }).updateSub sid
          (fun s => { s with welcome_sent_at := some now })).subscribers,
      ∃ s0 ∈ db.subscribers, s.id = s0.id ∧ s.status = s0.status := by
    intro s hs
    simp only [DB.updateSub, DB.insertToken, List.mem_map] at hs
    obtain ⟨s0, hs0, rfl⟩ := hs
    refine ⟨s0, hs0, ?_, ?_⟩ <;> by_cases h : s0.id = sid <;> simp [h]
  unfold confirmWelcome
  split
  · exact base
  · split
    · exact base
    · split
      · exact base
      · split
        · exact base
        · split
          · exact base
          · split
            · exact base
            · exact step

theorem confirmWelcome_tokenUsed (hash : String → String) (env : ConfirmEnv) (db : DB)
    (sid now tid : Nat) (h : db.tokenUsed tid = true) :
    (confirmWelcome hash env db sid now).2.1.tokenUsed tid = true := by
  have hins : ∀ tk : Token, (db.insertToken tk).tokenUsed tid = true := by
    intro tk
    simp only [DB.tokenUsed, DB.insertToken, List.any_append, Bool.or_eq_true]
    left
    simpa [DB.tokenUsed] using h
  have hstep : ∀ tk : Token, ((db.insertToken tk).updateSub sid
      (fun s => { s with welcome_sent_at := some now })).tokenUsed tid = true := by
    intro tk
    exact hins tk
  unfold confirmWelcome
  split
  · exact h
  · split
    · exact h
    · split
      · exact h
      · split
        · exact h
        · split
          · exact hins _
          · split
            · exact hins _
            · exact hstep _

theorem confirmWelcome_res (hash : String → String) (env : ConfirmEnv) (db : DB)
    (sid now : Nat) (sub : Subscriber) (hsub : db.subRowsById sid = [sub])
    (hge : env.subGetErr = false) (hie : env.unsubInsertErr = false)
    (hwe : env.welcomeSendErr = false) :
    (confirmWelcome hash env db sid now).1 = .confirmed := by
  unfold confirmWelcome
  rw [hsub]
  simp only [hge, single, Bool.false_eq_true, if_false]
  cases hw : sub.welcome_sent_at with
  | some w => simp [hw]
  | none =>
    simp only [hw, hie, hwe, Option.isSome_none, Bool.false_eq_true, if_false]
    split <;> rfl

/-- C6: with a reliable store, `confirm(raw)` succeeds exactly once for an
issued confirm token: the first valid call returns `confirmed`, sets the
owning subscriber `active` and marks the token used; every later call with
the same raw value — at any time — returns the idempotent
`already_confirmed` outcome, changes nothing and sends no mail. -/
theorem confirm_exactly_once :
    ∀ (hash : String → String) (tid : Nat) (fresh : String) (db : DB) (raw : String)
      (now1 now2 : Nat) (t : Token) (sub : Subscriber),
      trimStr raw ≠ "" →
      db.findTokenRows .confirm (hash (trimStr raw)) = [t] →
      t.used_at = none →
      isExpired t now1 = false →
      db.subRowsById t.subscriber_id = [sub] →
      ((confirmPost hash (ConfirmEnv.ok tid fresh) db raw now1).1 = .confirmed ∧
       (∀ s ∈ (confirmPost hash (ConfirmEnv.ok tid fresh) db raw now1).2.1.subscribers,
         s.id = t.subscriber_id → s.status = .active) ∧
       (confirmPost hash (ConfirmEnv.ok tid fresh) db raw now1).2.1.tokenUsed t.id = true) ∧
      confirmPost hash (ConfirmEnv.ok tid fresh)
          (confirmPost hash (ConfirmEnv.ok tid fresh) db raw now1).2.1 raw now2 =
        (.alreadyConfirmed, (confirmPost hash (ConfirmEnv.ok tid fresh) db raw now1).2.1, []) := by
  intro hash tid fresh db raw now1 now2 t sub hraw hlook hused hexp hsub
  have hfirst : confirmPost hash (ConfirmEnv.ok tid fresh) db raw now1 =
      confirmWelcome hash (ConfirmEnv.ok tid fresh)
        ((db.updateSub t.subscriber_id
            (fun s => { s with status := .active, confirmed_at := some now1 })).updateTok t.id
          (fun tk => { tk with used_at := some now1 }))
        t.subscriber_id now1 := by
    simp only [confirmPost, if_neg hraw, ConfirmEnv.ok, maybeSingle, hlook]
    simp [hused, hexp]
  have hsub2 : ((db.updateSub t.subscriber_id
      (fun s => { s with status := .active, confirmed_at := some now1 })).updateTok t.id
        (fun tk => { tk with used_at := some now1 })).subRowsById t.subscriber_id =
      [{ sub with status := .active, confirmed_at := some now1 }] := by
    rw [subRowsById_updateTok, subRowsById_updateSub_self db t.subscriber_id
      (fun s => { s with status := .active, confirmed_at := some now1 }) (fun s => rfl), hsub]
    rfl
  have hdb2subs : ∀ s ∈ ((db.updateSub t.subscriber_id
      (fun s => { s with status := .active, confirmed_at := some now1 })).updateTok t.id
        (fun tk => { tk with used_at := some now1 })).subscribers,
      s.id = t.subscriber_id → s.status = .active := by
    intro s hs hid
    simp only [DB.updateTok, DB.updateSub, List.mem_map] at hs
    obtain ⟨s0, _, rfl⟩ := hs
    by_cases h0 : s0.id = t.subscriber_id
    · simp [h0]
    · simp only [if_neg h0] at hid ⊢
      exact absurd hid h0
  have hdb2used : ((db.updateSub t.subscriber_id
      (fun s => { s with status := .active, confirmed_at := some now1 })).updateTok t.id
        (fun tk => { tk with used_at := some now1 })).tokenUsed t.id = true := by
    simp only [DB.tokenUsed, DB.updateTok, DB.updateSub, List.any_eq_true]
    refine ⟨{ t with used_at := some now1 }, ?_, by simp⟩
    simp only [List.mem_map]
    exact ⟨t, mem_tokens_of_findTokenRows hlook, by simp⟩
  have hfind2 : ((db.updateSub t.subscriber_id
      (fun s => { s with status := .active, confirmed_at := some now1 })).updateTok t.id
        (fun tk => { tk with used_at := some now1 })).findTokenRows .confirm
        (hash (trimStr raw)) = [{ t with used_at := some now1 }] := by
    rw [findTokenRows_markUsed, findTokenRows_updateSub, hlook]
    simp
  have hfindFinal : (confirmPost hash (ConfirmEnv.ok tid fresh) db raw now1).2.1.findTokenRows
      .confirm (hash (trimStr raw)) = [{ t with used_at := some now1 }] := by
    rw [hfirst, confirmWelcome_findConfirm, hfind2]
  refine ⟨⟨?_, ?_, ?_⟩, ?_⟩
  · rw [hfirst]
    exact confirmWelcome_res _ _ _ _ _ _ hsub2 rfl rfl rfl
  · intro s hs hid
    rw [hfirst] at hs
    obtain ⟨s0, hs0, hideq, hsteq⟩ := confirmWelcome_subscribers _ _ _ _ _ s hs
    rw [hsteq]
    exact hdb2subs s0 hs0 (hideq ▸ hid)
  · rw [hfirst]
    exact confirmWelcome_tokenUsed _ _ _ _ _ _ hdb2used
  · generalize hdbF : (confirmPost hash (ConfirmEnv.ok tid fresh) db raw now1).2.1 = dbF at hfindFinal ⊢
    simp only [confirmPost, if_neg hraw, ConfirmEnv.ok, maybeSingle, hfindFinal]
    simp

/-- Witness for `confirm_exactly_once`: a concrete confirm-then-reconfirm
run. -/
theorem confirm_exactly_once_witness :
    ((confirmPost cHash (ConfirmEnv.ok 99 "fresh") c6db "tok" 50).1 = .confirmed) ∧
    confirmPost cHash (ConfirmEnv.ok 99 "fresh")
        (confirmPost cHash (ConfirmEnv.ok 99 "fresh") c6db "tok" 50).2.1 "tok" 60 =
      (.alreadyConfirmed, (confirmPost cHash (ConfirmEnv.ok 99 "fresh") c6db "tok" 50).2.1, []) := by
  have h := confirm_exactly_once cHash 99 "fresh" c6db "tok" 50 60
    ⟨10, 1, .confirm, "tok#h", some 100, none⟩ ⟨1, "a@b.com", .pending, none, none⟩
    (by decide) (by decide) (by decide) (by decide) (by decide)
  exact ⟨h.1.1, h.2⟩

/-- C10: in both confirm variants, `used_at` is written only after the
subscriber activation succeeded: when the activation update fails, the
operation returns a store error and leaves the store (and hence the token)
untouched; and in every environment, a run that consumes the token leaves
the owning subscriber `active`. -/
theorem confirm_consumption_safety :
    ∀ (hash : String → String) (env : ConfirmEnv) (penv : PageEnv)
      (decodeURI : String → String) (db : DB) (raw : String) (slug : List String)
      (queryToken : Option String) (now : Nat) (t : Token),
      trimStr raw = raw →
      raw ≠ "" →
      db.findTokenRows .confirm (hash raw) = [t] →
      t.used_at = none →
      isExpired t now = false →
      db.tokenUsed t.id = false →
      (env.baseUrlOk = true → env.fromOk = true → env.tokenSelectErr = false →
        env.subUpdateErr = true →
        confirmPost hash env db raw now = (.storeErr "subscriber update failed", db, [])) ∧
      ((confirmPost hash env db raw now).2.1.tokenUsed t.id = true →
        ∀ s ∈ (confirmPost hash env db raw now).2.1.subscribers,
          s.id = t.subscriber_id → s.status = .active) ∧
      (pageToken decodeURI slug queryToken = raw →
        penv.tokenSelectErr = false → penv.subUpdateErr = true →
        confirmPage hash decodeURI penv db slug queryToken now =
          (.activateFailed "subscriber update failed", db, [])) ∧
      (pageToken decodeURI slug queryToken = raw →
        (confirmPage hash decodeURI penv db slug queryToken now).2.1.tokenUsed t.id = true →
        ∀ s ∈ (confirmPage hash decodeURI penv db slug queryToken now).2.1.subscribers,
          s.id = t.subscriber_id → s.status = .active) := by
  intro hash env penv decodeURI db raw slug queryToken now t htr hraw hlook hused hexp hTokU
  have hraww : trimStr raw ≠ "" := by rw [htr]; exact hraw
  have hlookw : db.findTokenRows .confirm (hash (trimStr raw)) = [t] := by rw [htr]; exact hlook
  have hdb2subs : ∀ s ∈ ((db.updateSub t.subscriber_id
      (fun s => { s with status := .active, confirmed_at := some now })).updateTok t.id
        (fun tk => { tk with used_at := some now })).subscribers,
      s.id = t.subscriber_id → s.status = .active := by
    intro s hs hid
    simp only [DB.updateTok, DB.updateSub, List.mem_map] at hs
    obtain ⟨s0, _, rfl⟩ := hs
    by_cases h0 : s0.id = t.subscriber_id
    · simp [h0]
    · simp only [if_neg h0] at hid ⊢
      exact absurd hid h0
  refine ⟨?_, ?_, ?_, ?_⟩
  · intro hb hf hsel hsub
    simp only [confirmPost, if_neg hraww, maybeSingle, hlookw]
    simp [hb, hf, hsel, hsub, hused, hexp]
  · have hshape : (∃ r m, confirmPost hash env db raw now = (r, db, m)) ∨
        (∃ r m, confirmPost hash env db raw now =
          (r, db.updateSub t.subscriber_id
            (fun s => { s with status := .active, confirmed_at := some now }), m)) ∨
        (confirmPost hash env db raw now = confirmWelcome hash env
          ((db.updateSub t.subscriber_id
              (fun s => { s with status := .active, confirmed_at := some now })).updateTok t.id
            (fun tk => { tk with used_at := some now })) t.subscriber_id now) := by
      simp only [confirmPost, if_neg hraww, maybeSingle, hlookw]
      by_cases hb : env.baseUrlOk
      · by_cases hf : env.fromOk
        · by_cases hsel : env.tokenSelectErr
          · simp [hb, hf, hsel]
          · by_cases hsub : env.subUpdateErr
            · simp [hb, hf, hsel, hsub, hused, hexp]
            · by_cases htu : env.tokenUsedUpdateErr
              · simp [hb, hf, hsel, hsub, htu, hused, hexp]
              · simp [hb, hf, hsel, hsub, htu, hused, hexp]
        · simp [hb, hf]
      · simp [hb]
    rcases hshape with ⟨r, m, heq⟩ | ⟨r, m, heq⟩ | heq
    · rw [heq]
      intro h
      simp [hTokU] at h
    · rw [heq]
      intro h
      have : (db.updateSub t.subscriber_id
          (fun s => { s with status := .active, confirmed_at := some now })).tokenUsed t.id =
          db.tokenUsed t.id := rfl
      rw [this, hTokU] at h
      cases h
    · rw [heq]
      intro _ s hs hid
      obtain ⟨s0, hs0, hideq, hsteq⟩ := confirmWelcome_subscribers _ _ _ _ _ s hs
      rw [hsteq]
      exact hdb2subs s0 hs0 (hideq ▸ hid)
  · intro htok hsel hsub
    simp only [confirmPage, htok, if_neg hraw, maybeSingle, hlook]
    simp [hsel, hsub, hused, hexp]
  · intro htok
    have hshape : (∃ r m, confirmPage hash decodeURI penv db slug queryToken now = (r, db, m)) ∨
        (∃ r m, confirmPage hash decodeURI penv db slug queryToken now =
          (r, db.updateSub t.subscriber_id
            (fun s => { s with status := .active, confirmed_at := some now }), m)) ∨
        (confirmPage hash decodeURI penv db slug queryToken now = (.confirmedPage,
          (db.updateSub t.subscriber_id
              (fun s => { s with status := .active, confirmed_at := some now })).updateTok t.id
            (fun tk => { tk with used_at := some now }), [])) := by
      simp only [confirmPage, htok, if_neg hraw, maybeSingle, hlook]
      by_cases hsel : penv.tokenSelectErr
      · simp [hsel]
      · by_cases hsub : penv.subUpdateErr
        · simp [hsel, hsub, hused, hexp]
        · by_cases htu : penv.tokenUsedUpdateErr
          · simp [hsel, hsub, htu, hused, hexp]
          · simp [hsel, hsub, htu, hused, hexp]
    rcases hshape with ⟨r, m, heq⟩ | ⟨r, m, heq⟩ | heq
    · rw [heq]
      intro h
      simp [hTokU] at h
    · rw [heq]
      intro h
      have : (db.updateSub t.subscriber_id
          (fun s => { s with status := .active, confirmed_at := some now })).tokenUsed t.id =
          db.tokenUsed t.id := rfl
      rw [this, hTokU] at h
      cases h
    · rw [heq]
      intro _ s hs hid
      exact hdb2subs s hs hid

/-- Witness for `confirm_consumption_safety` with a failing
subscriber-activation write. -/
theorem confirm_consumption_safety_witness :
    confirmPost cHash c10env c6db "tok" 50 = (.storeErr "subscriber update failed", c6db, []) ∧
    confirmPage cHash id ⟨false, true, false⟩ c6db ["tok"] none 50 =
      (.activateFailed "subscriber update failed", c6db, []) := by
  have h := confirm_consumption_safety cHash c10env ⟨false, true, false⟩ id c6db "tok"
    ["tok"] none 50 ⟨10, 1, .confirm, "tok#h", some 100, none⟩
    (by decide) (by decide) (by decide) (by decide) (by decide) (by decide)
  exact ⟨h.1 rfl rfl rfl rfl, h.2.2.1 (by decide) rfl rfl⟩

theorem confirmWelcome_classify (hash : String → String) (env : ConfirmEnv) (db : DB)
    (sid now : Nat) (hie : env.unsubInsertErr = false) :
    classifyPost (confirmWelcome hash env db sid now).1 = .success := by
  unfold confirmWelcome
  split
  · rfl
  · split
    · rfl
    · split
      · rfl
      · rw [hie]
        simp only [Bool.false_eq_true, if_false]
        split
        · rfl
        · split
          · rfl
          · rfl

theorem confirmPage_no_mail (hash decodeURI : String → String) (penv : PageEnv) (db : DB)
    (slug : List String) (queryToken : Option String) (now : Nat) :
    (confirmPage hash decodeURI penv db slug queryToken now).2.2 = [] := by
  simp only [confirmPage]
  repeat first | rfl | split

theorem activated_subscribers (db : DB) (sid now tid : Nat) :
    ∀ s ∈ ((db.updateSub sid
        (fun s => { s with status := .active, confirmed_at := some now })).updateTok tid
          (fun tk => { tk with used_at := some now })).subscribers,
      s.id = sid → s.status = .active := by
  intro s hs hid
  simp only [DB.updateTok, DB.updateSub, List.mem_map] at hs
  obtain ⟨s0, _, rfl⟩ := hs
  by_cases h0 : s0.id = sid
  · simp [h0]
  · simp only [if_neg h0] at hid ⊢
    exact absurd hid h0

theorem markUsed_tokenUsed (db : DB) {t : Token} (ht : t ∈ db.tokens) (sid now : Nat) :
    ((db.updateSub sid
        (fun s => { s with status := .active, confirmed_at := some now })).updateTok t.id
          (fun tk => { tk with used_at := some now })).tokenUsed t.id = true := by
  simp only [DB.tokenUsed, DB.updateTok, DB.updateSub, List.any_eq_true]
  refine ⟨{ t with used_at := some now }, ?_, by simp⟩
  simp only [List.mem_map]
  exact ⟨t, ht, by simp⟩

/-- C9 (amended): the browser-facing GET confirmation page takes its token
from the URL path segment with precedence over the query parameter, and
agrees with POST /newsletter/confirm on the outcome classification of any
token and on the two success-path writes (activate subscriber, mark token
used); unlike the POST route, however, the page never sends any email —
the welcome-email side effect of a fresh first-time confirmation exists
only in the POST route. -/
theorem confirm_get_post_agreement :
    ∀ (hash decodeURI : String → String) (tid : Nat) (fresh : String) (db : DB)
      (slug : List String) (queryToken : Option String) (now : Nat),
      trimStr (pageToken decodeURI slug queryToken) = pageToken decodeURI slug queryToken →
      (decodeURI (trimStr (slug.headD "")) ≠ "" →
        pageToken decodeURI slug queryToken = decodeURI (trimStr (slug.headD ""))) ∧
      classifyPost (confirmPost hash (ConfirmEnv.ok tid fresh) db
          (pageToken decodeURI slug queryToken) now).1 =
        classifyPage (confirmPage hash decodeURI PageEnv.ok db slug queryToken now).1 ∧
      (confirmPage hash decodeURI PageEnv.ok db slug queryToken now).2.2 = [] ∧
      (∀ t, pageToken decodeURI slug queryToken ≠ "" →
        db.findTokenRows .confirm (hash (pageToken decodeURI slug queryToken)) = [t] →
        t.used_at = none → isExpired t now = false →
        (∀ s ∈ (confirmPost hash (ConfirmEnv.ok tid fresh) db
            (pageToken decodeURI slug queryToken) now).2.1.subscribers,
          s.id = t.subscriber_id → s.status = .active) ∧
        (confirmPost hash (ConfirmEnv.ok tid fresh) db
            (pageToken decodeURI slug queryToken) now).2.1.tokenUsed t.id = true ∧
        (∀ s ∈ (confirmPage hash decodeURI PageEnv.ok db slug queryToken now).2.1.subscribers,
          s.id = t.subscriber_id → s.status = .active) ∧
        (confirmPage hash decodeURI PageEnv.ok db slug queryToken now).2.1.tokenUsed t.id =
          true) := by
  intro hash decodeURI tid fresh db slug queryToken now htrim
  refine ⟨?_, ?_, confirmPage_no_mail hash decodeURI PageEnv.ok db slug queryToken now, ?_⟩
  · intro h
    simp only [pageToken]
    rw [if_pos h]
  · by_cases h0 : pageToken decodeURI slug queryToken = ""
    · simp only [confirmPost, confirmPage, htrim, h0]
      simp [classifyPost, classifyPage, show trimStr "" = "" from rfl]
    · simp only [confirmPost, confirmPage, htrim, if_neg h0]
      cases hl : db.findTokenRows .confirm (hash (pageToken decodeURI slug queryToken)) with
      | nil => simp [maybeSingle, hl, ConfirmEnv.ok, PageEnv.ok, classifyPost, classifyPage]
      | cons a l =>
        cases l with
        | nil =>
          cases hu : a.used_at with
          | some u =>
            simp [maybeSingle, hl, hu, ConfirmEnv.ok, PageEnv.ok, classifyPost, classifyPage]
          | none =>
            by_cases he : isExpired a now = true
            · simp [maybeSingle, hl, hu, he, ConfirmEnv.ok, PageEnv.ok, classifyPost,
                classifyPage]
            · simp only [maybeSingle, hl, hu, he, ConfirmEnv.ok, PageEnv.ok]
              simp [classifyPage, hu, he]
              exact confirmWelcome_classify hash (ConfirmEnv.ok tid fresh) _ _ _ rfl
        | cons b m => simp [maybeSingle, hl, ConfirmEnv.ok, PageEnv.ok, classifyPost,
            classifyPage]
  · intro t h0 hlook hused hexp
    have htmem : t ∈ db.tokens := mem_tokens_of_findTokenRows hlook
    have hraww : trimStr (pageToken decodeURI slug queryToken) ≠ "" := by
      rw [htrim]; exact h0
    have hlookw : db.findTokenRows .confirm
        (hash (trimStr (pageToken decodeURI slug queryToken))) = [t] := by
      rw [htrim]; exact hlook
    have hfirst : confirmPost hash (ConfirmEnv.ok tid fresh) db
        (pageToken decodeURI slug queryToken) now =
        confirmWelcome hash (ConfirmEnv.ok tid fresh)
          ((db.updateSub t.subscriber_id
              (fun s => { s with status := .active, confirmed_at := some now })).updateTok t.id
            (fun tk => { tk with used_at := some now }))
          t.subscriber_id now := by
      simp only [confirmPost, if_neg hraww, ConfirmEnv.ok, maybeSingle, hlookw]
      simp [hused, hexp]
    have hpage : confirmPage hash decodeURI PageEnv.ok db slug queryToken now =
        (.confirmedPage,
          (db.updateSub t.subscriber_id
              (fun s => { s with status := .active, confirmed_at := some now })).updateTok t.id
            (fun tk => { tk with used_at := some now }), []) := by
      simp only [confirmPage, if_neg h0, PageEnv.ok, maybeSingle, hlook]
      simp [hused, hexp]
    refine ⟨?_, ?_, ?_, ?_⟩
    · intro s hs hid
      rw [hfirst] at hs
      obtain ⟨s0, hs0, hideq, hsteq⟩ := confirmWelcome_subscribers _ _ _ _ _ s hs
      rw [hsteq]
      exact activated_subscribers db t.subscriber_id now t.id s0 hs0 (hideq ▸ hid)
    · rw [hfirst]
      exact confirmWelcome_tokenUsed _ _ _ _ _ _ (markUsed_tokenUsed db htmem _ now)
    · intro s hs hid
      rw [hpage] at hs
      exact activated_subscribers db t.subscriber_id now t.id s hs hid
    · rw [hpage]
      exact markUsed_tokenUsed db htmem _ now

/-- Witness for `confirm_get_post_agreement` on a concrete fresh token. -/
theorem confirm_get_post_agreement_witness :
    classifyPost (confirmPost cHash (ConfirmEnv.ok 99 "fresh") c6db
        (pageToken id ["tok"] none) 50).1 =
      classifyPage (confirmPage cHash id PageEnv.ok c6db ["tok"] none 50).1 ∧
    (confirmPage cHash id PageEnv.ok c6db ["tok"] none 50).2.1.tokenUsed 10 = true := by
  have h := confirm_get_post_agreement cHash id 99 "fresh" c6db ["tok"] none 50 (by decide)
  refine ⟨h.2.1, ?_⟩
  have h4 := h.2.2.2 ⟨10, 1, .confirm, "tok#h", some 100, none⟩ (by decide) (by decide)
    (by decide) (by decide)
  exact h4.2.2.2

/-- C9 counterexample: on the same fresh first-time confirmation, the POST
route sends the welcome email while the GET page sends nothing, so the two
variants do not have the same welcome-email side effect. -/
theorem confirm_get_welcome_counterexample :
    pageToken id ["tok"] none = "tok" ∧
    (confirmPage cHash id PageEnv.ok c6db ["tok"] none 50).1 = .confirmedPage ∧
    (confirmPost cHash (ConfirmEnv.ok 99 "fresh") c6db "tok" 50).1 = .confirmed ∧
    (confirmPage cHash id PageEnv.ok c6db ["tok"] none 50).2.2 = [] ∧
    (confirmPost cHash (ConfirmEnv.ok 99 "fresh") c6db "tok" 50).2.2 = ["a@b.com"] := by
  decide

/-- C1 (amended): the subscribe-with-confirmation handler does not
reactivate an `unsubscribed` subscriber: it rejects the request with
ok:false, error "That email is unsubscribed." (HTTP 400) and leaves the
store untouched; and every ok outcome it can return carries status
`pending` or `active` — `resent` and `resubscribed` are never produced. -/
theorem subscribe_unsubscribed_reject :
    (∀ (hash : String → String) (env : SubscribeEnv) (db : DB) (emailRaw : String)
       (now : Nat) (sub : Subscriber),
      env.subSelectErr = false →
      isValidEmail (lowerStr (trimStr emailRaw)) = true →
      db.subRowsByEmail (lowerStr (trimStr emailRaw)) = [sub] →
      sub.status = .unsubscribed →
      subscribeConfirmPost hash env db emailRaw now =
        (.err "That email is unsubscribed." 400, db, [])) ∧
    (∀ (hash : String → String) (env : SubscribeEnv) (db : DB) (emailRaw : String)
       (now : Nat) (st : String) (d : DB) (m : List String),
      subscribeConfirmPost hash env db emailRaw now = (.okSt st, d, m) →
      st = "pending" ∨ st = "active") := by
  constructor
  · intro hash env db emailRaw now sub hsel hvalid hlook hst
    simp only [subscribeConfirmPost]
    simp [hsel, hvalid, hlook, maybeSingle, hst]
  · intro hash env db emailRaw now st d m h
    simp only [subscribeConfirmPost] at h
    split at h
    · simp at h
    · split at h
      · simp at h
      · split at h
        · simp at h
        · split at h
          · simp at h
          · split at h
            · simp at h
              exact Or.inr h.1.symm
            · split at h
              · simp at h
              · split at h
                · simp at h
                · split at h
                  · simp at h
                  · simp at h
                    exact Or.inl h.1.symm

/-- C1 counterexample: for an existing `unsubscribed` subscriber, the
handler returns the error response and performs no reactivation, token
mint, or email — it does not continue the confirmation flow. -/
theorem subscribeConfirm_unsubscribed_counterexample :
    c1db.subRowsByEmail "a@b.com" = [⟨1, "a@b.com", .unsubscribed, none, none⟩] ∧
    subscribeConfirmPost cHash (SubscribeEnv.ok 2 20 "fresh") c1db "A@b.com " 0 =
      (.err "That email is unsubscribed." 400, c1db, []) := by
  decide

/-- Witness for `subscribe_unsubscribed_reject` at concrete states. -/
theorem subscribe_unsubscribed_reject_witness :
    subscribeConfirmPost cHash (SubscribeEnv.ok 2 20 "fresh") c1db "a@b.com" 0 =
      (.err "That email is unsubscribed." 400, c1db, []) ∧
    ("pending" = "pending" ∨ "pending" = "active") := by
  constructor
  · exact subscribe_unsubscribed_reject.1 cHash (SubscribeEnv.ok 2 20 "fresh") c1db
      "a@b.com" 0 ⟨1, "a@b.com", .unsubscribed, none, none⟩ rfl (by decide) (by decide) rfl
  · exact subscribe_unsubscribed_reject.2 cHash (SubscribeEnv.ok 2 20 "fresh")
      ⟨[], [], []⟩ "a@b.com" 0 "pending"
      ⟨[⟨2, "a@b.com", .pending, none, none⟩],
       [⟨20, 2, .confirm, "fresh#h", some 86400000, none⟩], []⟩
      ["a@b.com"] (by decide)

theorem sendUploadLoop_spec (hash : String → String) (env : SendEnv) (now : Nat) :
    ∀ (rs : List (Nat × String)) (db : DB),
      (sendUploadLoop hash env now db rs).sent =
        (rs.filter (fun r => ! recipFails env r.2)).length ∧
      (sendUploadLoop hash env now db rs).failed =
        (rs.filter (fun r => recipFails env r.2)).map (fun r => (r.2, recipErrMsg env r.2)) ∧
      (sendUploadLoop hash env now db rs).mails =
        (rs.filter (fun r => ! recipFails env r.2)).map (fun r => r.2) ∧
      (sendUploadLoop hash env now db rs).db.newsletters = db.newsletters := by
  intro rs
  induction rs with
  | nil => intro db; simp [sendUploadLoop]
  | cons r rest ih =>
    intro db
    cases hm : env.mintErr r.2 with
    | some m =>
      have hf : recipFails env r.2 = true := by simp [recipFails, hm]
      have he : recipErrMsg env r.2 = m := by simp [recipErrMsg, hm]
      simp only [sendUploadLoop, hm]
      obtain ⟨ih1, ih2, ih3, ih4⟩ := ih db
      simp [List.filter_cons, hf, he, ih1, ih2, ih3, ih4]
    | none =>
      cases hr : (resendSendWithRetry (env.sendOutcome r.2) 4).1 with
      | ok u =>
        have hf : recipFails env r.2 = false := by simp [recipFails, hm, hr]
        simp only [sendUploadLoop, hm, hr]
        obtain ⟨ih1, ih2, ih3, ih4⟩ := ih (db.insertToken
          { id := env.freshTokId r.2, subscriber_id := r.1, ttype := .unsubscribe,
            token_hash := hash (env.freshRaw r.2), expires_at := some (now + unsubTtlMs),
            used_at := none })
        refine ⟨?_, ?_, ?_, ?_⟩
        · simp [List.filter_cons, hf, ih1]
        · simp [List.filter_cons, hf, ih2]
        · simp [List.filter_cons, hf, ih3]
        · exact ih4
      | error m =>
        have hf : recipFails env r.2 = true := by simp [recipFails, hm, hr]
        have he : recipErrMsg env r.2 = m := by simp [recipErrMsg, hm, hr]
        simp only [sendUploadLoop, hm, hr]
        obtain ⟨ih1, ih2, ih3, ih4⟩ := ih (db.insertToken
          { id := env.freshTokId r.2, subscriber_id := r.1, ttype := .unsubscribe,
            token_hash := hash (env.freshRaw r.2), expires_at := some (now + unsubTtlMs),
            used_at := none })
        refine ⟨?_, ?_, ?_, ?_⟩
        · simp [List.filter_cons, hf, ih1]
        · simp [List.filter_cons, hf, he, ih2]
        · simp [List.filter_cons, hf, ih3]
        · exact ih4

/-- C3: in a bulk send over the active subscribers, each recipient is
attempted independently: the failing recipients are recorded, in order, in
the `failed` list with their email and error message, the loop is never
aborted, and the route returns ok with `sent` the number of recipients not
in `failed`, so that `sent + failedCount` equals the number of selected
recipients. -/
theorem bulk_send_isolation :
    ∀ (hash : String → String) (env : SendEnv) (db : DB) (subjectRaw : String)
      (f : FileInfo) (now : Nat),
      env.baseUrlOk = true → env.fromOk = true → env.uploadErr = false →
      env.subSelectErr = false → env.clearErr = false → env.issueInsertErr = false →
      trimStr subjectRaw ≠ "" →
      (extOf (if f.name = "" then "newsletter" else f.name) = "pdf" ∨
        extOf (if f.name = "" then "newsletter" else f.name) = "docx") →
      f.size ≤ 10 * 1024 * 1024 →
      (sendUploadPost hash env db subjectRaw "" (some f) now).1 =
        .ok ((db.activeRecipients.filter (fun r => ! recipFails env r.2)).length)
          ((db.activeRecipients.filter (fun r => recipFails env r.2)).map
            (fun r => (r.2, recipErrMsg env r.2))) ∧
      (db.activeRecipients.filter (fun r => ! recipFails env r.2)).length +
        ((db.activeRecipients.filter (fun r => recipFails env r.2)).map
          (fun r => (r.2, recipErrMsg env r.2))).length =
        db.activeRecipients.length := by
  intro hash env db subjectRaw f now hb hfo hup hsel hclear hins hsubj hext hsize
  have h0 : lowerStr (trimStr "") = "" := rfl
  have hsize' : ¬ (f.size > 10 * 1024 * 1024) := by omega
  have hext' : ¬ ¬ (extOf (if f.name = "" then "newsletter" else f.name) = "pdf" ∨
      extOf (if f.name = "" then "newsletter" else f.name) = "docx") := not_not_intro hext
  obtain ⟨l1, l2, l3, l4⟩ := sendUploadLoop_spec hash env now db.activeRecipients db
  constructor
  · simp only [sendUploadPost, hb, hfo, hup, hsel, if_neg hsubj, h0, if_neg hext',
      if_neg hsize', Bool.false_eq_true, if_false, ne_eq, eq_self_iff_true, not_true,
      issueBookkeeping, hclear, hins, l1, l2]
    split
    · next m heq =>
        split at heq <;> cases heq
    · rfl
  · rw [List.length_map]
    have := List.length_eq_length_filter_add
      (l := db.activeRecipients) (fun r => recipFails env r.2)
    omega

theorem filter_demote_nil (l : List Issue) :
    (l.map demoteLatest).filter (·.is_latest) = [] := by
  induction l with
  | nil => rfl
  | cons a l ih =>
    by_cases h : a.is_latest <;> simp [demoteLatest, List.filter_cons, h, ih]

theorem latestCount_demote_insert (l : List Issue) (row : Issue) (hrow : row.is_latest = true) :
    ((l.map demoteLatest ++ [row]).filter (·.is_latest)).length = 1 := by
  rw [List.filter_append, filter_demote_nil]
  simp [List.filter_cons, hrow]

/-- C4: a bulk send writes the new issue row marked `is_latest = true` —
after demoting every previously-latest row, so exactly one row is latest
afterwards — precisely when at least one email was sent; when `sent = 0`
the newsletters table is untouched. -/
theorem latest_issue_bookkeeping :
    ∀ (hash : String → String) (env : SendEnv) (db : DB) (subjectRaw : String)
      (f : FileInfo) (now : Nat),
      env.baseUrlOk = true → env.fromOk = true → env.uploadErr = false →
      env.subSelectErr = false → env.clearErr = false → env.issueInsertErr = false →
      trimStr subjectRaw ≠ "" →
      (extOf (if f.name = "" then "newsletter" else f.name) = "pdf" ∨
        extOf (if f.name = "" then "newsletter" else f.name) = "docx") →
      f.size ≤ 10 * 1024 * 1024 →
      (0 < (db.activeRecipients.filter (fun r => ! recipFails env r.2)).length →
        (sendUploadPost hash env db subjectRaw "" (some f) now).2.1.newsletters =
          db.newsletters.map demoteLatest ++
            [⟨trimStr subjectRaw, if f.name = "" then "newsletter" else f.name,
              env.storagePrefix ++ (if f.name = "" then "newsletter" else f.name),
              (if extOf (if f.name = "" then "newsletter" else f.name) = "pdf"
                then "application/pdf"
                else "application/vnd.openxmlformats-officedocument.wordprocessingml.document"),
              true⟩] ∧
        (sendUploadPost hash env db subjectRaw "" (some f) now).2.1.latestCount = 1) ∧
      ((db.activeRecipients.filter (fun r => ! recipFails env r.2)).length = 0 →
        (sendUploadPost hash env db subjectRaw "" (some f) now).2.1.newsletters =
          db.newsletters) := by
  intro hash env db subjectRaw f now hb hfo hup hsel hclear hins hsubj hext hsize
  have h0 : lowerStr (trimStr "") = "" := rfl
  have hsize' : ¬ (f.size > 10 * 1024 * 1024) := by omega
  have hext' : ¬ ¬ (extOf (if f.name = "" then "newsletter" else f.name) = "pdf" ∨
      extOf (if f.name = "" then "newsletter" else f.name) = "docx") := not_not_intro hext
  obtain ⟨l1, l2, l3, l4⟩ := sendUploadLoop_spec hash env now db.activeRecipients db
  simp only [sendUploadPost, hb, hfo, hup, hsel, if_neg hsubj, h0, if_neg hext',
    if_neg hsize', Bool.false_eq_true, if_false, ne_eq, eq_self_iff_true, not_true,
    issueBookkeeping, hclear, hins, l1]
  by_cases hS : (db.activeRecipients.filter (fun r => ! recipFails env r.2)).length > 0
  · simp only [if_pos hS]
    constructor
    · intro _
      constructor
      · rw [l4]
      · simp only [DB.latestCount]
        rw [l4]
        apply latestCount_demote_insert
        rfl
    · intro hzero
      omega
  · simp only [if_neg hS]
    constructor
    · intro hposS
      omega
    · intro _
      exact l4

/-- Witness for `bulk_send_isolation`: two active recipients of which one
fails with a non-rate-limit error. -/
theorem bulk_send_isolation_witness :
    ((sendUploadPost cHash c3env c3db "Subj" "" (some ⟨"n.pdf", 100⟩) 0).1 =
      .ok ((c3db.activeRecipients.filter (fun r => ! recipFails c3env r.2)).length)
        ((c3db.activeRecipients.filter (fun r => recipFails c3env r.2)).map
          (fun r => (r.2, recipErrMsg c3env r.2)))) ∧
    (sendUploadPost cHash c3env c3db "Subj" "" (some ⟨"n.pdf", 100⟩) 0).1 =
      .ok 1 [("b@x.com", "boom")] := by
  have h := bulk_send_isolation cHash c3env c3db "Subj" ⟨"n.pdf", 100⟩ 0
    rfl rfl rfl rfl rfl rfl (by decide) (by decide) (by decide)
  exact ⟨h.1, by decide⟩

/-- Witness for `latest_issue_bookkeeping` on a send with one success. -/
theorem latest_issue_bookkeeping_witness :
    0 < (c3db.activeRecipients.filter (fun r => ! recipFails c3env r.2)).length ∧
    (sendUploadPost cHash c3env c3db "Subj" "" (some ⟨"n.pdf", 100⟩) 0).2.1.latestCount = 1 := by
  have h := latest_issue_bookkeeping cHash c3env c3db "Subj" ⟨"n.pdf", 100⟩ 0
    rfl rfl rfl rfl rfl rfl (by decide) (by decide) (by decide)
  exact ⟨by decide, (h.1 (by decide)).2⟩

/-- C5 (amended): the upload-based bulk send rejects a test email whose
subscriber exists with a status other than `active`, with an eligibility
error naming the current status, before any token is minted and before any
send is attempted (store unchanged, outbox empty).  The JSON/html send
route checks only that the test email exists, so the claim does not hold
for it (see the counterexample). -/
theorem sendUpload_test_eligibility :
    ∀ (hash : String → String) (env : SendEnv) (db : DB) (subjectRaw testEmailRaw : String)
      (f : FileInfo) (now : Nat) (d : Subscriber),
      env.baseUrlOk = true → env.fromOk = true → env.uploadErr = false →
      env.subSelectErr = false →
      trimStr subjectRaw ≠ "" →
      (extOf (if f.name = "" then "newsletter" else f.name) = "pdf" ∨
        extOf (if f.name = "" then "newsletter" else f.name) = "docx") →
      f.size ≤ 10 * 1024 * 1024 →
      lowerStr (trimStr testEmailRaw) ≠ "" →
      db.subRowsByEmail (lowerStr (trimStr testEmailRaw)) = [d] →
      d.status ≠ .active →
      sendUploadPost hash env db subjectRaw testEmailRaw (some f) now =
        (.err ("Test email is not active (status=" ++ d.status.str ++
          "). Subscribe + confirm first.") 400, db, []) := by
  intro hash env db subjectRaw testEmailRaw f now d hb hfo hup hsel hsubj hext hsize hte
    hlook hst
  have hsize' : ¬ (f.size > 10 * 1024 * 1024) := by omega
  have hext' : ¬ ¬ (extOf (if f.name = "" then "newsletter" else f.name) = "pdf" ∨
      extOf (if f.name = "" then "newsletter" else f.name) = "docx") := not_not_intro hext
  simp only [sendUploadPost, hb, hfo, hup, hsel, if_neg hsubj, if_neg hext', if_neg hsize',
    Bool.false_eq_true, if_false, maybeSingle, hlook]
  simp [hte, hst]

/-- C5 counterexample: the JSON/html send route accepts a `pending` test
subscriber — it mints an unsubscribe token and attempts (and here
completes) the send instead of rejecting the request. -/
theorem send_testEmail_pending_counterexample :
    c5db.subRowsByEmail "t@x.com" = [⟨1, "t@x.com", .pending, none, none⟩] ∧
    (sendHtmlPost cHash c5env c5db "S" "<p>x</p>" "t@x.com" 0).1 = .ok 1 [] ∧
    (sendHtmlPost cHash c5env c5db "S" "<p>x</p>" "t@x.com" 0).2.2 = ["t@x.com"] ∧
    (sendHtmlPost cHash c5env c5db "S" "<p>x</p>" "t@x.com" 0).2.1.tokens.length = 1 := by
  decide

/-- Witness for `sendUpload_test_eligibility` on a concrete pending test
subscriber. -/
theorem sendUpload_test_eligibility_witness :
    sendUploadPost cHash c3env c5db "Subj" "t@x.com" (some ⟨"n.pdf", 100⟩) 0 =
      (.err ("Test email is not active (status=" ++ SubStatus.pending.str ++
        "). Subscribe + confirm first.") 400, c5db, []) :=
  sendUpload_test_eligibility cHash c3env c5db "Subj" "t@x.com" ⟨"n.pdf", 100⟩ 0
    ⟨1, "t@x.com", .pending, none, none⟩ rfl rfl rfl rfl (by decide) (by decide)
    (by decide) (by decide) (by decide) (by decide)
